import Mathlib

/-!
Shallow embedding of `src/scopeview.c`: the serial acquisition routine
`acquire_scope_buffer` and the pixel decode loop of `redraw_timer_handler`,
together with the palette tables and the theme-cycling key handler.

Machine integers are modelled as `Nat`; the `uint8_t` frame bytes are reduced
`% 256` where the code reads them.  The serial channel is modelled as the list
of events the `select`/`read` pair observes: each event either makes the
descriptor readable after `wait` microseconds and lets `read` return a chunk
of bytes, or makes `select` return `-1` (an I/O error) after `wait`
microseconds.  `read(fd, buf, 64)` returns at most 64 bytes, so a chunk event
delivers `min data.length 64` bytes.  The `timeout` struct is initialised once
per call to `acquire_scope_buffer` (as in the source) and, following the
Linux semantics of `select`, the remaining budget is threaded through the
loop.
-/

namespace Scopeview

/-- Source constant `#define INPUT_WIDTH 320`. -/
def INPUT_WIDTH : Nat := 320

/-- Source constant `#define RX_TIMEOUT 200000` (microseconds, i.e. 200 ms). -/
def RX_TIMEOUT : Nat := 200000

/-- Source constant `#define SCREEN_DUMP_SIZE 40960`. -/
def SCREEN_DUMP_SIZE : Nat := 40960

/-- Source constant `#define COLOR_THEME_COUNT 3`. -/
def COLOR_THEME_COUNT : Nat := 3

/-- GTK key code for the space bar, `GDK_KEY_space = 0x020`. -/
def GDK_KEY_space : Nat := 0x020

/-- Capture request `const uint8_t msg[] = { 0x57, 0x00, 0x00, 0x0A }`. -/
def msg : List Nat := [0x57, 0x00, 0x00, 0x0A]

/-- Pixel color `typedef struct { unsigned char r, g, b; } rgb_color;`. -/
structure rgb_color where
  r : Nat
  g : Nat
  b : Nat
deriving DecidableEq

/-- Palette `rgb_color colors_orig[]` — original colors from the LCD display. -/
def colors_orig : List rgb_color :=
  [⟨0x00, 0x00, 0x00⟩, ⟨0x00, 0x00, 0x00⟩, ⟨0xff, 0xff, 0x00⟩, ⟨0x80, 0x80, 0x80⟩,
   ⟨0x00, 0xff, 0xff⟩, ⟨0x80, 0x80, 0x80⟩, ⟨0x66, 0xff, 0x66⟩, ⟨0xff, 0xff, 0xff⟩,
   ⟨0x88, 0x88, 0x88⟩, ⟨0x80, 0x80, 0x80⟩, ⟨0x00, 0x00, 0x55⟩, ⟨0xbb, 0xbb, 0xbb⟩,
   ⟨0x80, 0x80, 0x80⟩, ⟨0x80, 0x80, 0x80⟩, ⟨0xff, 0x22, 0x22⟩, ⟨0xff, 0xff, 0xff⟩]

/-- Palette `rgb_color colors_light[]` — happy colors with a white background. -/
def colors_light : List rgb_color :=
  [⟨0x55, 0x56, 0x50⟩, ⟨0xf9, 0xf8, 0xf5⟩, ⟨0xf9, 0x26, 0x72⟩, ⟨0x80, 0x00, 0x80⟩,
   ⟨0x46, 0xa9, 0xdf⟩, ⟨0x80, 0x00, 0x80⟩, ⟨0x86, 0xd2, 0x1e⟩, ⟨0x55, 0x56, 0x50⟩,
   ⟨0xa5, 0xa1, 0xae⟩, ⟨0x80, 0x00, 0x80⟩, ⟨0xf8, 0xf8, 0xf2⟩, ⟨0xf8, 0xf8, 0xf2⟩,
   ⟨0x80, 0x00, 0x80⟩, ⟨0x80, 0x00, 0x80⟩, ⟨0xf4, 0xbf, 0x35⟩, ⟨0xf9, 0xf8, 0xf5⟩]

/-- Palette `rgb_color colors_dark[]` — darker colors. -/
def colors_dark : List rgb_color :=
  [⟨0x1d, 0x1c, 0x1a⟩, ⟨0x1d, 0x1c, 0x1a⟩, ⟨0xd7, 0x99, 0x21⟩, ⟨0x80, 0x00, 0x80⟩,
   ⟨0x45, 0x85, 0x88⟩, ⟨0x80, 0x00, 0x80⟩, ⟨0xb8, 0xbb, 0x26⟩, ⟨0xa8, 0x99, 0x84⟩,
   ⟨0x92, 0x83, 0x74⟩, ⟨0x80, 0x00, 0x80⟩, ⟨0x32, 0x30, 0x2f⟩, ⟨0xa8, 0x99, 0x84⟩,
   ⟨0x80, 0x00, 0x80⟩, ⟨0x80, 0x00, 0x80⟩, ⟨0xfb, 0x49, 0x34⟩, ⟨0xeb, 0xdb, 0xb2⟩]

/-- Palette `rgb_color colors_mono[]` — black and white, for printing. -/
def colors_mono : List rgb_color :=
  [⟨0x00, 0x00, 0x00⟩, ⟨0xff, 0xff, 0xff⟩, ⟨0x00, 0x00, 0x00⟩, ⟨0xff, 0xff, 0xff⟩,
   ⟨0x00, 0x00, 0x00⟩, ⟨0xff, 0xff, 0xff⟩, ⟨0x00, 0x00, 0x00⟩, ⟨0x00, 0x00, 0x00⟩,
   ⟨0x00, 0x00, 0x00⟩, ⟨0xff, 0xff, 0xff⟩, ⟨0xff, 0xff, 0xff⟩, ⟨0xff, 0xff, 0xff⟩,
   ⟨0xff, 0xff, 0xff⟩, ⟨0xff, 0xff, 0xff⟩, ⟨0x00, 0x00, 0x00⟩, ⟨0xff, 0xff, 0xff⟩]

/-- Theme table `static rgb_color *color_themes[] = {colors_dark, colors_light, colors_mono};`. -/
def color_themes : List (List rgb_color) := [colors_dark, colors_light, colors_mono]

/-- The color lookup `color_themes[theme][nibble]` of the decode loop. -/
def themeColor (theme nibble : Nat) : rgb_color :=
  (color_themes.getD theme []).getD nibble ⟨0, 0, 0⟩

/-- The theme update performed by `key_event`: on `GDK_KEY_space` the global
`theme` becomes `(theme + 1) % COLOR_THEME_COUNT`, otherwise it is unchanged. -/
def key_event (keyval theme : Nat) : Nat :=
  if keyval = GDK_KEY_space then (theme + 1) % COLOR_THEME_COUNT else theme

/-- One pixel written by the decode loop: the output row and column it targets
and the RGB color stored there. -/
structure PixWrite where
  outRow : Nat
  col : Nat
  color : rgb_color
deriving DecidableEq

/-- The pixels the decode loop produces for the input byte at linear offset
`byte_cnt`.  Mirrors the loop body of `redraw_timer_handler`:
`row = byte_cnt % 128`, `col = (INPUT_WIDTH-1) - byte_cnt/128`; when
`byte_cnt % 128 < 120` the high nibble is written at output row `row*2` and
the low nibble at output row `row*2+1`, both in column `col`; otherwise the
byte produces no pixels.  `in_byte` is a `uint8_t`, hence the `% 256`. -/
def bytePixWrites (theme : Nat) (buffer : Nat → Nat) (byte_cnt : Nat) : List PixWrite :=
  let in_byte := buffer byte_cnt % 256
  let row := byte_cnt % 128
  let col := (INPUT_WIDTH - 1) - byte_cnt / 128
  if byte_cnt % 128 < 120 then
    [⟨row * 2, col, themeColor theme ((in_byte >>> 4) &&& 0x0f)⟩,
     ⟨row * 2 + 1, col, themeColor theme (in_byte &&& 0x0f)⟩]
  else []

/-- The three byte stores of one pixel write: offsets
`320*3*outRow + 3*col`, `.. + 1`, `.. + 2` receive the R, G and B components. -/
def pixelByteWrites (w : PixWrite) : List (Nat × Nat) :=
  [(320 * 3 * w.outRow + 3 * w.col, w.color.r),
   (320 * 3 * w.outRow + 3 * w.col + 1, w.color.g),
   (320 * 3 * w.outRow + 3 * w.col + 2, w.color.b)]

/-- The byte stores (offset, value) the decode loop performs for one input
byte, in program order. -/
def byteWrites (theme : Nat) (buffer : Nat → Nat) (byte_cnt : Nat) : List (Nat × Nat) :=
  (bytePixWrites theme buffer byte_cnt).flatMap pixelByteWrites

/-- All pixel writes of one decode pass, in loop order
(`byte_cnt = 0, 1, ..., SCREEN_DUMP_SIZE - 1`). -/
def decodePixWrites (theme : Nat) (buffer : Nat → Nat) : List PixWrite :=
  (List.range SCREEN_DUMP_SIZE).flatMap (bytePixWrites theme buffer)

/-- All byte stores of one decode pass, in program order. -/
def decodeWrites (theme : Nat) (buffer : Nat → Nat) : List (Nat × Nat) :=
  (List.range SCREEN_DUMP_SIZE).flatMap (byteWrites theme buffer)

/-- Apply a list of byte stores to the output raster (a map from byte offset
to byte value), left to right. -/
def applyWrites (s : Nat → Nat) (ws : List (Nat × Nat)) : Nat → Nat :=
  ws.foldl (fun t w => fun k => if k = w.1 then w.2 else t k) s

/-- The decode loop of `redraw_timer_handler`: starting from the raster `s`
(the `scope_pixels` buffer), perform every byte store of the pass. -/
def decode (theme : Nat) (buffer : Nat → Nat) (s : Nat → Nat) : Nat → Nat :=
  applyWrites s (decodeWrites theme buffer)

/-- One event observed by the `select`/`read` pair in `acquire_scope_buffer`:
either the descriptor becomes readable after `wait` microseconds and `read`
yields `data`, or `select` reports an I/O error after `wait` microseconds.
A channel that never becomes readable is the empty event list. -/
inductive ChanEvent where
  | ready (wait : Nat) (data : List Nat)
  | ioErr (wait : Nat)
deriving DecidableEq

/-- The arrival time of an event. -/
def ChanEvent.wait : ChanEvent → Nat
  | .ready w _ => w
  | .ioErr w => w

/-- Which `return` statement of `acquire_scope_buffer` produced the result:
`success` is `return 0` after `total == SCREEN_DUMP_SIZE`; `selectError` is
`return 1` after `select` yielded `-1`; `selectTimeout` is `return 1` after
`select` yielded `0`; `overflow` is the `return 1` of the overflow branch
(the only failure that also prints a diagnostic). -/
inductive ExitReason where
  | success
  | selectError
  | selectTimeout
  | overflow
deriving DecidableEq

/-- Result of one call to `acquire_scope_buffer`: `code` is the `uint8_t`
return value (0 success, 1 failure); `buffer` is the byte sequence copied
into the frame buffer, in order; `total` is the final running total;
`copies` lists the sizes of the chunks that were copied, in order;
`elapsed` is the microseconds spent waiting in `select`. -/
structure AcqResult where
  code : Nat
  reason : ExitReason
  buffer : List Nat
  total : Nat
  copies : List Nat
  elapsed : Nat
deriving DecidableEq

/-- The `while (1)` loop of `acquire_scope_buffer`.  `budget` is the time
left in the `timeout` struct, `acc` the bytes copied so far, `total` the
running total.  On each event: if it arrives no earlier than the budget
expires, `select` returns 0 and the function returns 1; an I/O event makes
`select` return -1 and the function returns 1; otherwise `read` returns
`rval = min data.length 64` bytes, and when `rval > 0` the chunk is copied
only if `total + rval <= SCREEN_DUMP_SIZE`, returning 0 exactly when the
new total equals `SCREEN_DUMP_SIZE` and failing with the overflow branch
when the new total exceeds it. -/
def acquireGo : List ChanEvent → Nat → List Nat → Nat → List Nat → Nat → AcqResult
  | [], budget, acc, total, copies, elapsed =>
      ⟨1, .selectTimeout, acc, total, copies, elapsed + budget⟩
  | .ioErr w :: _, budget, acc, total, copies, elapsed =>
      if budget ≤ w then ⟨1, .selectTimeout, acc, total, copies, elapsed + budget⟩
      else ⟨1, .selectError, acc, total, copies, elapsed + w⟩
  | .ready w data :: rest, budget, acc, total, copies, elapsed =>
      if budget ≤ w then ⟨1, .selectTimeout, acc, total, copies, elapsed + budget⟩
      else
        let rval := min data.length 64
        if 0 < rval then
          if total + rval ≤ SCREEN_DUMP_SIZE then
            if total + rval = SCREEN_DUMP_SIZE then
              ⟨0, .success, acc ++ data.take 64, total + rval,
               copies ++ [rval], elapsed + w⟩
            else
              acquireGo rest (budget - w) (acc ++ data.take 64) (total + rval)
                (copies ++ [rval]) (elapsed + w)
          else ⟨1, .overflow, acc, total + rval, copies, elapsed + w⟩
        else acquireGo rest (budget - w) acc total copies (elapsed + w)

/-- Function `acquire_scope_buffer`: send the capture request, then run the read loop
with a fresh `RX_TIMEOUT` budget and an empty frame buffer. -/
def acquire_scope_buffer (events : List ChanEvent) : AcqResult :=
  acquireGo events RX_TIMEOUT [] 0 [] 0

/-- A channel that is readable immediately (wait 0) and delivers the given
chunks, one per `read` call. -/
def chunkChannel (cs : List (List Nat)) : List ChanEvent :=
  cs.map (fun c => ChanEvent.ready 0 c)

/-- Result of one timer tick of `redraw_timer_handler`: the raster after the
tick and whether the decode loop ran. -/
structure RedrawResult where
  raster : Nat → Nat
  decoded : Bool

/-- Handler `redraw_timer_handler` without its GTK plumbing: call
`acquire_scope_buffer`; on a nonzero return code return immediately with the
raster untouched; otherwise run the decode loop over the acquired frame. -/
def redraw_timer_handler (events : List ChanEvent) (theme : Nat)
    (raster : Nat → Nat) : RedrawResult :=
  let r := acquire_scope_buffer events
  if r.code ≠ 0 then ⟨raster, false⟩
  else ⟨decode theme (fun i => r.buffer.getD i 0) raster, true⟩

/-- A 64-byte chunk, for concrete channels. -/
def chunk64 : List Nat := List.replicate 64 0

/-- A 63-byte chunk, for concrete channels. -/
def chunk63 : List Nat := List.replicate 63 0

end Scopeview

namespace Scopeview

/-- The number of pixels one input byte contributes: 2 when its offset lies in
the first 120 positions of its 128-byte scan-line, 0 otherwise. -/
theorem length_bytePixWrites (t : Nat) (buf : Nat → Nat) (i : Nat) :
    (bytePixWrites t buf i).length = if i % 128 < 120 then 2 else 0 := by
  simp only [bytePixWrites]
  split <;> rfl

set_option maxRecDepth 4000

/-- Length of the flattening of `n` copies of a chunk. -/
theorem length_flatten_replicate (n : Nat) (c : List Nat) :
    (List.replicate n c).flatten.length = n * c.length := by
  induction n with
  | zero => simp
  | succ n ih =>
    rw [List.replicate_succ, List.flatten_cons, List.length_append, ih, Nat.succ_mul]
    omega

/-- Pixel count of a decode pass over the first `128 * k` input bytes. -/
theorem count_blocks (t : Nat) (buf : Nat → Nat) :
    ∀ k, ((List.range (128 * k)).flatMap (bytePixWrites t buf)).length = 240 * k := by
  intro k
  induction k with
  | zero => rfl
  | succ k ih =>
    rw [Nat.mul_succ, List.range_add, List.flatMap_append, List.length_append, ih]
    rw [List.flatMap_map, List.length_flatMap]
    have hcongr : ∀ a ∈ List.range 128,
        (List.length ∘ fun x => bytePixWrites t buf (128 * k + x)) a =
          (fun x => if x % 128 < 120 then 2 else 0) a := by
      intro a _
      simp only [Function.comp_apply, length_bytePixWrites, Nat.mul_add_mod]
    rw [List.map_congr_left hcongr]
    have hsum : ((List.range 128).map (fun x => if x % 128 < 120 then 2 else 0)).sum = 240 := by
      decide
    rw [hsum, Nat.mul_succ]

/-- A byte offset not targeted by any store in `ws` is left unchanged by
`applyWrites`. -/
theorem applyWrites_not_mem :
    ∀ (ws : List (Nat × Nat)) (s : Nat → Nat) (k : Nat),
      k ∉ ws.map Prod.fst → applyWrites s ws k = s k := by
  intro ws
  induction ws with
  | nil => intro s k _; rfl
  | cons w ws ih =>
    intro s k h
    simp only [List.map_cons, List.mem_cons] at h
    push_neg at h
    have hstep : applyWrites s (w :: ws) =
        applyWrites (fun k2 => if k2 = w.1 then w.2 else s k2) ws := rfl
    rw [hstep, ih _ _ h.2]
    simp [h.1]

end Scopeview

namespace Scopeview

/-- C1: for every input byte at linear offset `i` in `[0, SCREEN_DUMP_SIZE)`
with `i % 128 < 120`, the decode loop writes the high-nibble pixel at output
row `2*(i % 128)` and column `(320-1) - i/128` and the low-nibble pixel at
output row `2*(i % 128) + 1` and the same column, each pixel as 3 consecutive
byte stores at offset `320*3*out_row + 3*col` of the row-major RGB raster
(`decodeWrites` is exactly the concatenation of these groups over
`i = 0, ..., SCREEN_DUMP_SIZE - 1`). -/
theorem decode_pixel_offsets (theme : Nat) (buffer : Nat → Nat) (i : Nat)
    ( _h1 : i < SCREEN_DUMP_SIZE) (h2 : i % 128 < 120) :
    byteWrites theme buffer i =
      [(320 * 3 * (2 * (i % 128)) + 3 * ((320 - 1) - i / 128),
        (themeColor theme (((buffer i % 256) >>> 4) &&& 0x0f)).r),
       (320 * 3 * (2 * (i % 128)) + 3 * ((320 - 1) - i / 128) + 1,
        (themeColor theme (((buffer i % 256) >>> 4) &&& 0x0f)).g),
       (320 * 3 * (2 * (i % 128)) + 3 * ((320 - 1) - i / 128) + 2,
        (themeColor theme (((buffer i % 256) >>> 4) &&& 0x0f)).b),
       (320 * 3 * (2 * (i % 128) + 1) + 3 * ((320 - 1) - i / 128),
        (themeColor theme (buffer i % 256 &&& 0x0f)).r),
       (320 * 3 * (2 * (i % 128) + 1) + 3 * ((320 - 1) - i / 128) + 1,
        (themeColor theme (buffer i % 256 &&& 0x0f)).g),
       (320 * 3 * (2 * (i % 128) + 1) + 3 * ((320 - 1) - i / 128) + 2,
        (themeColor theme (buffer i % 256 &&& 0x0f)).b)] := by
  simp only [byteWrites, bytePixWrites, pixelByteWrites, INPUT_WIDTH, if_pos h2,
    List.flatMap_cons, List.flatMap_nil, List.append_nil, List.cons_append,
    List.nil_append, Nat.mul_comm]

/-- Witness for C1 at `theme = 0`, the all-zero buffer and offset `i = 0`. -/
theorem decode_pixel_offsets_witness :
    byteWrites 0 (fun _ => 0) 0 =
      [(320 * 3 * (2 * (0 % 128)) + 3 * ((320 - 1) - 0 / 128),
        (themeColor 0 ((((fun _ => (0 : Nat)) 0 % 256) >>> 4) &&& 0x0f)).r),
       (320 * 3 * (2 * (0 % 128)) + 3 * ((320 - 1) - 0 / 128) + 1,
        (themeColor 0 ((((fun _ => (0 : Nat)) 0 % 256) >>> 4) &&& 0x0f)).g),
       (320 * 3 * (2 * (0 % 128)) + 3 * ((320 - 1) - 0 / 128) + 2,
        (themeColor 0 ((((fun _ => (0 : Nat)) 0 % 256) >>> 4) &&& 0x0f)).b),
       (320 * 3 * (2 * (0 % 128) + 1) + 3 * ((320 - 1) - 0 / 128),
        (themeColor 0 ((fun _ => (0 : Nat)) 0 % 256 &&& 0x0f)).r),
       (320 * 3 * (2 * (0 % 128) + 1) + 3 * ((320 - 1) - 0 / 128) + 1,
        (themeColor 0 ((fun _ => (0 : Nat)) 0 % 256 &&& 0x0f)).g),
       (320 * 3 * (2 * (0 % 128) + 1) + 3 * ((320 - 1) - 0 / 128) + 2,
        (themeColor 0 ((fun _ => (0 : Nat)) 0 % 256 &&& 0x0f)).b)] :=
  decode_pixel_offsets 0 (fun _ => 0) 0 (by decide) (by decide)

/-- C2: for every byte value `b` in `0x00..0xFF` that the decode loop
processes (offset not in the skipped tail), the color written for the
high-nibble pixel is `themeColor theme ((b >>> 4) &&& 0xF)` and the color
written for the low-nibble pixel is `themeColor theme (b &&& 0xF)`, the
lookup into the currently selected 16-entry palette. -/
theorem decode_nibble_palette (theme : Nat) (buffer : Nat → Nat) (i b : Nat)
    (hb : b < 256) (hbuf : buffer i = b) (h2 : i % 128 < 120) :
    (bytePixWrites theme buffer i).map PixWrite.color =
      [themeColor theme ((b >>> 4) &&& 0x0f), themeColor theme (b &&& 0x0f)] := by
  simp only [bytePixWrites, hbuf, Nat.mod_eq_of_lt hb, if_pos h2,
    List.map_cons, List.map_nil]

/-- Witness for C2 at `theme = 0`, the constant `0x12` buffer and offset 5. -/
theorem decode_nibble_palette_witness :
    (bytePixWrites 0 (fun _ => 0x12) 5).map PixWrite.color =
      [themeColor 0 ((0x12 >>> 4) &&& 0x0f), themeColor 0 (0x12 &&& 0x0f)] :=
  decode_nibble_palette 0 (fun _ => 0x12) 5 0x12 (by decide) rfl (by decide)

/-- C3 counterexample: the claim says the bottom 16 rows of the 320x240
raster (rows 224..239) are never written, but the decode pass for input byte
119 writes output row 239 (and 238): the low-nibble pixel of byte 119 lands
at row 239, column 319, which lies inside the bottom 16 rows. -/
theorem decode_bottom_rows_counterexample :
    (⟨239, 319, themeColor 0 0⟩ : PixWrite) ∈ decodePixWrites 0 (fun _ => 0) ∧
      240 - 16 ≤ 239 ∧ 239 < 240 := by
  refine ⟨List.mem_flatMap.mpr ⟨119, ?_, ?_⟩, by decide, by decide⟩
  · simp [List.mem_range, SCREEN_DUMP_SIZE]
  · decide

/-- C3 (amended): a decode pass performs exactly `2 * SCREEN_DUMP_SIZE * 120
/ 128 = 76800` pixel-triple writes (bytes with `i % 128 >= 120` contribute
none), every written pixel has output row `< 240` — the rows `240..255` that
the skipped tail would map to, i.e. the bottom 16 rows of the padded 320x256
layout, are never written — and every output byte not targeted by one of the
stores retains its pre-initialized value. -/
theorem decode_write_census (theme : Nat) (buffer : Nat → Nat) :
    (decodePixWrites theme buffer).length = 2 * SCREEN_DUMP_SIZE * 120 / 128 ∧
    (∀ w ∈ decodePixWrites theme buffer, w.outRow < 240) ∧
    (∀ (s : Nat → Nat) (k : Nat),
      k ∉ (decodeWrites theme buffer).map Prod.fst → decode theme buffer s k = s k) := by
  refine ⟨?_, ?_, ?_⟩
  · have h : SCREEN_DUMP_SIZE = 128 * 320 := by decide
    rw [decodePixWrites, h, count_blocks]
  · intro w hw
    obtain ⟨i, _, hwi⟩ := List.mem_flatMap.mp hw
    simp only [bytePixWrites] at hwi
    by_cases h : i % 128 < 120
    · rw [if_pos h] at hwi
      simp only [List.mem_cons, List.not_mem_nil, or_false] at hwi
      rcases hwi with h1 | h1 <;> subst h1 <;> simp <;> omega
    · rw [if_neg h] at hwi
      exact absurd hwi (List.not_mem_nil _)
  · intro s k hk
    exact applyWrites_not_mem _ s k hk

end Scopeview

namespace Scopeview

/-- A run of the read loop over an immediately-readable channel that delivers
`cs` chunk by chunk: if the chunk sizes are in `[1, 64]` and the bytes still
missing are exactly the bytes of `cs`, the loop copies every chunk and
returns 0 the moment the running total reaches `SCREEN_DUMP_SIZE`, without
looking at any further event. -/
theorem acquireGo_success (cs : List (List Nat)) :
    ∀ (extra : List ChanEvent) (b : Nat) (acc : List Nat) (total : Nat)
      (copies : List Nat) (elapsed : Nat),
      0 < b →
      (∀ c ∈ cs, 1 ≤ c.length ∧ c.length ≤ 64) →
      total + cs.flatten.length = SCREEN_DUMP_SIZE →
      total < SCREEN_DUMP_SIZE →
      acquireGo (chunkChannel cs ++ extra) b acc total copies elapsed =
        ⟨0, ExitReason.success, acc ++ cs.flatten, SCREEN_DUMP_SIZE,
         copies ++ cs.map List.length, elapsed⟩ := by
  induction cs with
  | nil =>
    intro extra b acc total copies elapsed _ _ hsum hlt
    simp only [List.flatten_nil, List.length_nil, Nat.add_zero] at hsum
    omega
  | cons c rest ih =>
    intro extra b acc total copies elapsed hb hcs hsum hlt
    have hc1 : 1 ≤ c.length := (hcs c (List.mem_cons_self c rest)).1
    have hc64 : c.length ≤ 64 := (hcs c (List.mem_cons_self c rest)).2
    have hflat : ((c :: rest).flatten).length = c.length + rest.flatten.length := by
      simp [List.flatten_cons]
    have hchan : chunkChannel (c :: rest) ++ extra =
        ChanEvent.ready 0 c :: (chunkChannel rest ++ extra) := by
      simp [chunkChannel]
    rw [hchan]
    simp only [acquireGo]
    rw [if_neg (by omega : ¬ b ≤ 0)]
    have hmin : min c.length 64 = c.length := Nat.min_eq_left hc64
    simp only [hmin]
    rw [if_pos (by omega : 0 < c.length)]
    have htake : c.take 64 = c := List.take_of_length_le hc64
    by_cases hhit : total + c.length = SCREEN_DUMP_SIZE
    · -- the running total reaches the frame size at this chunk
      have hrest : rest.flatten.length = 0 := by omega
      have hrestnil : rest = [] := by
        cases rest with
        | nil => rfl
        | cons d rest2 =>
          have hd1 : 1 ≤ d.length := (hcs d (by simp)).1
          rw [List.flatten_cons, List.length_append] at hrest
          omega
      subst hrestnil
      rw [if_pos (by omega : total + c.length ≤ SCREEN_DUMP_SIZE), if_pos hhit]
      simp [htake, hhit]
    · -- the chunk is copied and the loop continues
      have hle : total + c.length ≤ SCREEN_DUMP_SIZE := by
        rw [hflat] at hsum; omega
      rw [if_pos hle, if_neg hhit]
      have hrec := ih extra (b - 0) (acc ++ c.take 64) (total + c.length)
        (copies ++ [c.length]) (elapsed + 0) (by omega)
        (fun d hd => hcs d (List.mem_cons_of_mem c hd))
        (by rw [hflat] at hsum; omega) (by omega)
      rw [hrec]
      simp [htake, List.append_assoc]

/-- A run of the read loop that first copies the chunks of `pre` (staying
strictly below `SCREEN_DUMP_SIZE`) and then meets a chunk `c` that would push
the running total past `SCREEN_DUMP_SIZE`: the loop takes the overflow
branch, returning 1 without copying `c`. -/
theorem acquireGo_overflow (pre : List (List Nat)) :
    ∀ (c : List Nat) (post : List ChanEvent) (b : Nat) (acc : List Nat)
      (total : Nat) (copies : List Nat) (elapsed : Nat),
      0 < b →
      (∀ ch ∈ pre, 1 ≤ ch.length ∧ ch.length ≤ 64) →
      c.length ≤ 64 →
      total + pre.flatten.length < SCREEN_DUMP_SIZE →
      SCREEN_DUMP_SIZE < total + pre.flatten.length + c.length →
      acquireGo (chunkChannel pre ++ ChanEvent.ready 0 c :: post) b acc total copies elapsed =
        ⟨1, ExitReason.overflow, acc ++ pre.flatten,
         total + pre.flatten.length + c.length,
         copies ++ pre.map List.length, elapsed⟩ := by
  induction pre with
  | nil =>
    intro c post b acc total copies elapsed hb _ hc64 hlt hover
    simp only [List.flatten_nil, List.length_nil, Nat.add_zero] at hlt hover
    simp only [chunkChannel, List.map_nil, List.nil_append, acquireGo]
    rw [if_neg (by omega : ¬ b ≤ 0)]
    have hmin : min c.length 64 = c.length := Nat.min_eq_left hc64
    simp only [hmin]
    rw [if_pos (by omega : 0 < c.length), if_neg (by omega : ¬ total + c.length ≤ SCREEN_DUMP_SIZE)]
    simp
  | cons ch pre2 ih =>
    intro c post b acc total copies elapsed hb hpre hc64 hlt hover
    have hch1 : 1 ≤ ch.length := (hpre ch (List.mem_cons_self ch pre2)).1
    have hch64 : ch.length ≤ 64 := (hpre ch (List.mem_cons_self ch pre2)).2
    have hflat : ((ch :: pre2).flatten).length = ch.length + pre2.flatten.length := by
      simp [List.flatten_cons]
    have hchan : chunkChannel (ch :: pre2) ++ ChanEvent.ready 0 c :: post =
        ChanEvent.ready 0 ch :: (chunkChannel pre2 ++ ChanEvent.ready 0 c :: post) := by
      simp [chunkChannel]
    rw [hchan]
    simp only [acquireGo]
    rw [if_neg (by omega : ¬ b ≤ 0)]
    have hmin : min ch.length 64 = ch.length := Nat.min_eq_left hch64
    simp only [hmin]
    rw [if_pos (by omega : 0 < ch.length)]
    rw [if_pos (by rw [hflat] at hlt; omega : total + ch.length ≤ SCREEN_DUMP_SIZE)]
    rw [if_neg (by rw [hflat] at hlt; omega : ¬ total + ch.length = SCREEN_DUMP_SIZE)]
    have htake : ch.take 64 = ch := List.take_of_length_le hch64
    have hrec := ih c post (b - 0) (acc ++ ch.take 64) (total + ch.length)
      (copies ++ [ch.length]) (elapsed + 0) (by omega)
      (fun d hd => hpre d (List.mem_cons_of_mem ch hd)) hc64
      (by rw [hflat] at hlt; omega) (by rw [hflat] at hover; omega)
    rw [hrec]
    rw [hflat]
    simp [htake, List.append_assoc]
    omega

end Scopeview

namespace Scopeview


/-- The five-part loop invariant conclusion, for a failure exit of the read
loop: code 1, the bytes copied so far as the buffer. -/
theorem inv_fail_exit (rsn : ExitReason) (acc : List Nat) (t2 : Nat)
    (copies : List Nat) (e2 : Nat)
    (h1 : acc.length ≤ SCREEN_DUMP_SIZE) (h2 : t2 ≠ SCREEN_DUMP_SIZE)
    (h3 : ∀ n ∈ copies, n ≤ 64) (h4 : acc.length = copies.sum) :
    (AcqResult.mk 1 rsn acc t2 copies e2).buffer.length ≤ SCREEN_DUMP_SIZE ∧
    ((AcqResult.mk 1 rsn acc t2 copies e2).code = 0 ↔
      (AcqResult.mk 1 rsn acc t2 copies e2).total = SCREEN_DUMP_SIZE) ∧
    (∀ n ∈ (AcqResult.mk 1 rsn acc t2 copies e2).copies, n ≤ 64) ∧
    (AcqResult.mk 1 rsn acc t2 copies e2).buffer.length =
      (AcqResult.mk 1 rsn acc t2 copies e2).copies.sum ∧
    ((AcqResult.mk 1 rsn acc t2 copies e2).code = 0 →
      (AcqResult.mk 1 rsn acc t2 copies e2).buffer.length = SCREEN_DUMP_SIZE) := by
  refine ⟨h1, ⟨fun h => absurd h Nat.one_ne_zero, fun h => absurd h h2⟩, h3, h4,
    fun h => absurd h Nat.one_ne_zero⟩

/-- Loop invariant of the read loop: the bytes copied so far never exceed the
frame size, `return 0` happens exactly when the final running total is
`SCREEN_DUMP_SIZE`, every copied chunk is at most 64 bytes, the copied bytes
are exactly the copied chunks, and on success the whole frame was copied. -/
theorem acquireGo_inv (events : List ChanEvent) :
    ∀ (b : Nat) (acc : List Nat) (total : Nat) (copies : List Nat) (elapsed : Nat),
      total = acc.length →
      total < SCREEN_DUMP_SIZE →
      copies.sum = total →
      (∀ n ∈ copies, n ≤ 64) →
      (acquireGo events b acc total copies elapsed).buffer.length ≤ SCREEN_DUMP_SIZE ∧
      ((acquireGo events b acc total copies elapsed).code = 0 ↔
        (acquireGo events b acc total copies elapsed).total = SCREEN_DUMP_SIZE) ∧
      (∀ n ∈ (acquireGo events b acc total copies elapsed).copies, n ≤ 64) ∧
      (acquireGo events b acc total copies elapsed).buffer.length =
        (acquireGo events b acc total copies elapsed).copies.sum ∧
      ((acquireGo events b acc total copies elapsed).code = 0 →
        (acquireGo events b acc total copies elapsed).buffer.length = SCREEN_DUMP_SIZE) := by
  induction events with
  | nil =>
    intro b acc total copies elapsed hlen hlt hsum hcop
    exact inv_fail_exit _ acc total copies _ (by omega) (by omega) hcop (by omega)
  | cons e rest ih =>
    intro b acc total copies elapsed hlen hlt hsum hcop
    cases e with
    | ioErr w =>
      simp only [acquireGo]
      by_cases hw : b ≤ w
      · rw [if_pos hw]
        exact inv_fail_exit _ acc total copies _ (by omega) (by omega) hcop (by omega)
      · rw [if_neg hw]
        exact inv_fail_exit _ acc total copies _ (by omega) (by omega) hcop (by omega)
    | ready w data =>
      simp only [acquireGo]
      by_cases hw : b ≤ w
      · rw [if_pos hw]
        exact inv_fail_exit _ acc total copies _ (by omega) (by omega) hcop (by omega)
      · rw [if_neg hw]
        have hmin64 : min data.length 64 ≤ 64 := Nat.min_le_right _ _
        have htakelen : (data.take 64).length = min data.length 64 := by
          simp [List.length_take, Nat.min_comm]
        by_cases hpos : 0 < min data.length 64
        · rw [if_pos hpos]
          by_cases hle : total + min data.length 64 ≤ SCREEN_DUMP_SIZE
          · rw [if_pos hle]
            by_cases hhit : total + min data.length 64 = SCREEN_DUMP_SIZE
            · rw [if_pos hhit]
              refine ⟨?_, ?_, ?_, ?_, ?_⟩
              · simp only [List.length_append, htakelen]; omega
              · constructor
                · intro _; exact hhit
                · intro _; trivial
              · intro n hn
                simp only [List.mem_append, List.mem_singleton] at hn
                rcases hn with hn | hn
                · exact hcop n hn
                · omega
              · simp only [List.length_append, htakelen, List.sum_append,
                  List.sum_cons, List.sum_nil]
                omega
              · intro _
                simp only [List.length_append, htakelen]; omega
            · rw [if_neg hhit]
              apply ih
              · simp only [List.length_append, htakelen]; omega
              · omega
              · simp only [List.sum_append, List.sum_cons, List.sum_nil]; omega
              · intro n hn
                simp only [List.mem_append, List.mem_singleton] at hn
                rcases hn with hn | hn
                · exact hcop n hn
                · omega
          · rw [if_neg hle]
            exact inv_fail_exit _ acc _ copies _ (by omega) (by omega) hcop (by omega)
        · rw [if_neg hpos]
          exact ih _ acc total copies _ hlen hlt hsum hcop

/-- The return value of the read loop is 0 on the success exit and 1 on
every failure exit. -/
theorem acquireGo_code (events : List ChanEvent) :
    ∀ (b : Nat) (acc : List Nat) (total : Nat) (copies : List Nat) (elapsed : Nat),
      (acquireGo events b acc total copies elapsed).code =
        (if (acquireGo events b acc total copies elapsed).reason = ExitReason.success
         then 0 else 1) := by
  induction events with
  | nil => intro b acc total copies elapsed; rfl
  | cons e rest ih =>
    intro b acc total copies elapsed
    cases e with
    | ioErr w =>
      simp only [acquireGo]
      split <;> rfl
    | ready w data =>
      simp only [acquireGo]
      split
      · rfl
      · split
        · split
          · split
            · rfl
            · exact ih _ _ _ _ _
          · rfl
        · exact ih _ _ _ _ _

end Scopeview

namespace Scopeview

/-- C4: a channel that delivers exactly `SCREEN_DUMP_SIZE` bytes, split into
readable chunks of 1 to 64 bytes each (64 is the most one `read(fd, buf, 64)`
call can return), makes `acquire_scope_buffer` return 0, and the assembled
frame buffer equals the delivered byte sequence, in order. -/
theorem acquire_exact_frame (cs : List (List Nat))
    (hsizes : ∀ c ∈ cs, 1 ≤ c.length ∧ c.length ≤ 64)
    (htotal : cs.flatten.length = SCREEN_DUMP_SIZE) :
    (acquire_scope_buffer (chunkChannel cs)).code = 0 ∧
    (acquire_scope_buffer (chunkChannel cs)).buffer = cs.flatten ∧
    (acquire_scope_buffer (chunkChannel cs)).reason = ExitReason.success := by
  have h := acquireGo_success cs [] RX_TIMEOUT [] 0 [] 0 (by decide) hsizes
    (by omega) (by decide)
  rw [List.append_nil] at h
  rw [acquire_scope_buffer, h]
  exact ⟨rfl, by simp, rfl⟩

/-- Witness for C4: 640 chunks of 64 bytes. -/
theorem acquire_exact_frame_witness :
    (acquire_scope_buffer (chunkChannel (List.replicate 640 chunk64))).code = 0 ∧
    (acquire_scope_buffer (chunkChannel (List.replicate 640 chunk64))).buffer =
      (List.replicate 640 chunk64).flatten ∧
    (acquire_scope_buffer (chunkChannel (List.replicate 640 chunk64))).reason =
      ExitReason.success :=
  acquire_exact_frame (List.replicate 640 chunk64)
    (fun c hc => by rw [List.eq_of_mem_replicate hc]; exact ⟨by decide, by decide⟩)
    (by rw [length_flatten_replicate]; decide)

/-- C5 counterexample: a channel that delivers `SCREEN_DUMP_SIZE + 1` bytes
chunked as 640 chunks of 64 bytes followed by 1 byte.  The running total hits
exactly `SCREEN_DUMP_SIZE` at a chunk boundary, so `acquire_scope_buffer`
returns 0 (success) without ever reading the extra byte — contradicting the
claim that any chunking of `FRAME_SIZE + 1` bytes fails with overflow and
never returns success. -/
theorem acquire_overflow_counterexample :
    (List.replicate 640 chunk64 ++ [[0]]).flatten.length = SCREEN_DUMP_SIZE + 1 ∧
    (acquire_scope_buffer (chunkChannel (List.replicate 640 chunk64 ++ [[0]]))).code = 0 ∧
    (acquire_scope_buffer (chunkChannel (List.replicate 640 chunk64 ++ [[0]]))).reason =
      ExitReason.success := by
  constructor
  · rw [List.flatten_append, List.length_append, length_flatten_replicate]
    decide
  · have h := acquireGo_success (List.replicate 640 chunk64) (chunkChannel [[0]])
      RX_TIMEOUT [] 0 [] 0 (by decide)
      (fun c hc => by rw [List.eq_of_mem_replicate hc]; exact ⟨by decide, by decide⟩)
      (by rw [length_flatten_replicate]; decide)
      (by decide)
    have hch : chunkChannel (List.replicate 640 chunk64 ++ [[0]]) =
        chunkChannel (List.replicate 640 chunk64) ++ chunkChannel [[0]] := by
      unfold chunkChannel
      exact List.map_append _ _ _
    rw [acquire_scope_buffer, hch, h]
    exact ⟨rfl, rfl⟩

/-- C5 (amended): for every channel whose delivery straddles the frame
boundary — chunks `pre` totalling fewer than `SCREEN_DUMP_SIZE` bytes, then a
chunk `c` that would push the running total past `SCREEN_DUMP_SIZE` —
acquisition fails via the overflow branch (code 1), and the straddling chunk
is not copied: the frame buffer holds exactly the bytes before `c`, fewer
than `SCREEN_DUMP_SIZE`, so no partially-valid frame is returned.  (When a
chunk boundary falls exactly at `SCREEN_DUMP_SIZE`, the code instead returns
success with the first `SCREEN_DUMP_SIZE` bytes and never reads the excess,
as the counterexample shows.) -/
theorem acquire_straddle_overflow (pre : List (List Nat)) (c : List Nat)
    (post : List ChanEvent)
    (hpre : ∀ ch ∈ pre, 1 ≤ ch.length ∧ ch.length ≤ 64)
    (hc : c.length ≤ 64)
    (hlt : pre.flatten.length < SCREEN_DUMP_SIZE)
    (hover : SCREEN_DUMP_SIZE < pre.flatten.length + c.length) :
    (acquire_scope_buffer (chunkChannel pre ++ ChanEvent.ready 0 c :: post)).code = 1 ∧
    (acquire_scope_buffer (chunkChannel pre ++ ChanEvent.ready 0 c :: post)).reason =
      ExitReason.overflow ∧
    (acquire_scope_buffer (chunkChannel pre ++ ChanEvent.ready 0 c :: post)).buffer =
      pre.flatten ∧
    (acquire_scope_buffer (chunkChannel pre ++ ChanEvent.ready 0 c :: post)).buffer.length <
      SCREEN_DUMP_SIZE := by
  have h := acquireGo_overflow pre c post RX_TIMEOUT [] 0 [] 0 (by decide) hpre hc
    (by omega) (by omega)
  rw [acquire_scope_buffer, h]
  refine ⟨rfl, rfl, by simp, ?_⟩
  simpa using hlt

/-- Witness for the amended C5: 639 chunks of 64 bytes, one of 63 bytes
(40959 in all), then a 2-byte chunk that straddles the boundary. -/
theorem acquire_straddle_overflow_witness :
    (acquire_scope_buffer (chunkChannel (List.replicate 639 chunk64 ++ [chunk63]) ++
      ChanEvent.ready 0 [0, 0] :: [])).code = 1 ∧
    (acquire_scope_buffer (chunkChannel (List.replicate 639 chunk64 ++ [chunk63]) ++
      ChanEvent.ready 0 [0, 0] :: [])).reason = ExitReason.overflow ∧
    (acquire_scope_buffer (chunkChannel (List.replicate 639 chunk64 ++ [chunk63]) ++
      ChanEvent.ready 0 [0, 0] :: [])).buffer =
      (List.replicate 639 chunk64 ++ [chunk63]).flatten ∧
    (acquire_scope_buffer (chunkChannel (List.replicate 639 chunk64 ++ [chunk63]) ++
      ChanEvent.ready 0 [0, 0] :: [])).buffer.length < SCREEN_DUMP_SIZE :=
  acquire_straddle_overflow (List.replicate 639 chunk64 ++ [chunk63]) [0, 0] []
    (fun ch hch => by
      rcases List.mem_append.mp hch with h | h
      · rw [List.eq_of_mem_replicate h]; exact ⟨by decide, by decide⟩
      · rw [List.mem_singleton.mp h]; exact ⟨by decide, by decide⟩)
    (by decide)
    (by rw [List.flatten_append, List.length_append, length_flatten_replicate]; decide)
    (by rw [List.flatten_append, List.length_append, length_flatten_replicate]; decide)

/-- C6: a channel that never becomes readable within the `RX_TIMEOUT`
microsecond (200 ms) budget makes `acquire_scope_buffer` fail on its first
`select` with the timeout return, having waited at most `RX_TIMEOUT`
microseconds — within the configured bound and not later. -/
theorem acquire_timeout_bound (events : List ChanEvent)
    (hstall : ∀ e ∈ events, RX_TIMEOUT ≤ e.wait) :
    (acquire_scope_buffer events).code = 1 ∧
    (acquire_scope_buffer events).reason = ExitReason.selectTimeout ∧
    (acquire_scope_buffer events).elapsed ≤ RX_TIMEOUT := by
  cases events with
  | nil => exact ⟨rfl, rfl, by decide⟩
  | cons e rest =>
    have hw : RX_TIMEOUT ≤ e.wait := hstall e (List.mem_cons_self e rest)
    cases e with
    | ready w data =>
      have hw2 : RX_TIMEOUT ≤ w := hw
      simp only [acquire_scope_buffer, acquireGo]
      rw [if_pos hw2]
      exact ⟨rfl, rfl, by decide⟩
    | ioErr w =>
      have hw2 : RX_TIMEOUT ≤ w := hw
      simp only [acquire_scope_buffer, acquireGo]
      rw [if_pos hw2]
      exact ⟨rfl, rfl, by decide⟩

/-- Witness for C6: the empty event list, a channel that never becomes
readable at all. -/
theorem acquire_timeout_bound_witness :
    (acquire_scope_buffer []).code = 1 ∧
    (acquire_scope_buffer []).reason = ExitReason.selectTimeout ∧
    (acquire_scope_buffer []).elapsed ≤ RX_TIMEOUT :=
  acquire_timeout_bound [] (fun e he => absurd he (List.not_mem_nil e))

/-- C7: when `acquire_scope_buffer` returns nonzero, `redraw_timer_handler`
returns before the decode loop: the raster is unchanged and decode does not
run; and whenever decode does run, the acquired frame buffer holds exactly
`SCREEN_DUMP_SIZE` bytes — a partial buffer is never decoded. -/
theorem redraw_skips_decode_on_failure (events : List ChanEvent) (theme : Nat)
    (raster : Nat → Nat) (hfail : (acquire_scope_buffer events).code ≠ 0) :
    (redraw_timer_handler events theme raster).raster = raster ∧
    (redraw_timer_handler events theme raster).decoded = false ∧
    (∀ (ev2 : List ChanEvent) (t2 : Nat) (r2 : Nat → Nat),
      (redraw_timer_handler ev2 t2 r2).decoded = true →
      (acquire_scope_buffer ev2).buffer.length = SCREEN_DUMP_SIZE) := by
  refine ⟨?_, ?_, ?_⟩
  · simp [redraw_timer_handler, hfail]
  · simp [redraw_timer_handler, hfail]
  · intro ev2 t2 r2 hdec
    by_cases h0 : (acquire_scope_buffer ev2).code = 0
    · exact (acquireGo_inv ev2 RX_TIMEOUT [] 0 [] 0 rfl (by decide) rfl
        (fun n hn => absurd hn (List.not_mem_nil n))).2.2.2.2 h0
    · simp [redraw_timer_handler, h0] at hdec

/-- Witness for C7: the never-readable channel, theme 0, the all-zero
raster. -/
theorem redraw_skips_decode_on_failure_witness :
    (redraw_timer_handler [] 0 (fun _ => 0)).raster = (fun _ => (0 : Nat)) ∧
    (redraw_timer_handler [] 0 (fun _ => 0)).decoded = false ∧
    (∀ (ev2 : List ChanEvent) (t2 : Nat) (r2 : Nat → Nat),
      (redraw_timer_handler ev2 t2 r2).decoded = true →
      (acquire_scope_buffer ev2).buffer.length = SCREEN_DUMP_SIZE) :=
  redraw_skips_decode_on_failure [] 0 (fun _ => 0) (by decide)

/-- C8 (amended): all three failure paths of `acquire_scope_buffer` — select
error, select timeout and overflow — return the identical `uint8_t` value 1,
so the caller can tell that the acquisition failed but not which of the
three kinds occurred; only success is distinguishable (return 0).  (The
overflow branch alone also prints a diagnostic to stdout, which the caller
does not inspect.) -/
theorem acquire_failure_code_uniform (events : List ChanEvent)
    (hfail : (acquire_scope_buffer events).reason ≠ ExitReason.success) :
    (acquire_scope_buffer events).code = 1 := by
  have h := acquireGo_code events RX_TIMEOUT [] 0 [] 0
  rw [show (acquire_scope_buffer events).code =
      (if (acquire_scope_buffer events).reason = ExitReason.success then 0 else 1)
    from h]
  rw [if_neg hfail]

/-- Witness for the amended C8: the never-readable channel. -/
theorem acquire_failure_code_uniform_witness :
    (acquire_scope_buffer []).code = 1 :=
  acquire_failure_code_uniform [] (by decide)

/-- C8 counterexample: an I/O-error channel and a timed-out channel fail for
different reasons (distinct `return 1` statements in the source), yet the
value returned to the caller is the same in both cases — the caller cannot
tell which of the failure kinds occurred. -/
theorem acquire_failure_kinds_counterexample :
    (acquire_scope_buffer [ChanEvent.ioErr 0]).reason = ExitReason.selectError ∧
    (acquire_scope_buffer []).reason = ExitReason.selectTimeout ∧
    ExitReason.selectError ≠ ExitReason.selectTimeout ∧
    (acquire_scope_buffer [ChanEvent.ioErr 0]).code = (acquire_scope_buffer []).code :=
  ⟨rfl, rfl, by decide, rfl⟩

/-- C9: `acquire_scope_buffer` never fills the frame buffer past
`SCREEN_DUMP_SIZE` bytes (a chunk is copied only when the running total
after adding it is at most `SCREEN_DUMP_SIZE`), it returns 0 exactly when
the running total equals `SCREEN_DUMP_SIZE`, and every copied chunk is at
most the 64 bytes one `read` call can return. -/
theorem acquire_no_overrun (events : List ChanEvent) :
    (acquire_scope_buffer events).buffer.length ≤ SCREEN_DUMP_SIZE ∧
    ((acquire_scope_buffer events).code = 0 ↔
      (acquire_scope_buffer events).total = SCREEN_DUMP_SIZE) ∧
    (∀ n ∈ (acquire_scope_buffer events).copies, n ≤ 64) ∧
    (acquire_scope_buffer events).buffer.length =
      (acquire_scope_buffer events).copies.sum := by
  have h := acquireGo_inv events RX_TIMEOUT [] 0 [] 0 rfl (by decide) rfl
    (fun n hn => absurd hn (List.not_mem_nil n))
  exact ⟨h.1, h.2.1, h.2.2.1, h.2.2.2.1⟩

/-- The theme selector stays below `COLOR_THEME_COUNT` under any sequence of
key events, starting from any valid theme. -/
theorem theme_foldl_lt (keys : List Nat) :
    ∀ t, t < COLOR_THEME_COUNT →
      keys.foldl (fun th k => key_event k th) t < COLOR_THEME_COUNT := by
  induction keys with
  | nil => intro t ht; exact ht
  | cons k keys ih =>
    intro t ht
    rw [List.foldl_cons]
    apply ih
    show key_event k t < COLOR_THEME_COUNT
    unfold key_event
    split
    · exact Nat.mod_lt _ (by decide)
    · exact ht

/-- C10: after any number of key events the theme index (initially 0) stays
in `[0, COLOR_THEME_COUNT)`; `color_themes` has exactly `COLOR_THEME_COUNT`
palettes, each palette has exactly 16 entries, and each nibble index used by
the decode loop is masked with `0x0f` and hence below 16 — so every
decode-time lookup `color_themes[theme][nibble]` is in bounds. -/
theorem theme_always_valid :
    (∀ keys : List Nat,
      keys.foldl (fun th k => key_event k th) 0 < COLOR_THEME_COUNT) ∧
    color_themes.length = COLOR_THEME_COUNT ∧
    (∀ p ∈ color_themes, p.length = 16) ∧
    (∀ b : Nat, (b >>> 4) &&& 0x0f < 16 ∧ b &&& 0x0f < 16) := by
  refine ⟨fun keys => theme_foldl_lt keys 0 (by decide), by decide, ?_, ?_⟩
  · intro p hp
    simp only [color_themes, List.mem_cons, List.not_mem_nil, or_false] at hp
    rcases hp with h | h | h <;> subst h <;> decide
  · intro b
    have h1 : (b >>> 4) &&& 0x0f ≤ 0x0f := Nat.and_le_right
    have h2 : b &&& 0x0f ≤ 0x0f := Nat.and_le_right
    exact ⟨by omega, by omega⟩

end Scopeview
